import Mathlib

/-!
Shallow embedding of the windower program (src/windower.py) and proofs about it.

Numbers are modelled as exact rationals.  Python dynamic values that can reach
the timestamp check are modelled by the inductive type TSValue, with explicit
constructors for None, bool, int, float, and the special float values NaN and
plus or minus infinity (whose Python comparisons are reproduced exactly:
every comparison with NaN is false).  A parsed JSON payload entry is a JValue.
The functions clean_data, is_valid_timestamp, filter_and_process_data,
create_windows, dict_to_csv and dict_to_json are translated from the source;
the file-writing layers of dict_to_csv and dict_to_json are modelled over
already-rendered text (lists of characters), with the per-item rendering of
the external serialization libraries abstracted as a parameter.
-/

namespace Windower

/-- Model of a Python value that may appear in the timestamp field. -/
inductive TSValue where
  | tnone
  | tbool (b : Bool)
  | tint (n : ℤ)
  | tfloat (q : ℚ)
  | tnan
  | tinf
  | tninf
  | tstr (s : String)
deriving DecidableEq

/-- Model of a parsed JSON payload value (flat object entry). -/
inductive JValue where
  | jint (n : ℤ)
  | jfloat (q : ℚ)
  | jbool (b : Bool)
  | jstr (s : String)
  | jnull
deriving DecidableEq

/-- Model of one raw input record: the name tag (none models a missing or
None-valued field), the timestamp value, and the payload.  The payload string
of the source is modelled after parsing: none models a missing, empty or
unparseable data field, some pd the parsed flat object. -/
structure Entry where
  name : Option String
  timestamp : TSValue
  data : Option (List (String × JValue))
deriving DecidableEq

/-- A normalized record as produced by filter_and_process_data. -/
structure NormRecord where
  timestamp : ℚ
  fields : List (String × ℚ)
deriving DecidableEq

/-- Lower-casing of a string, Python str.lower. -/
def strLower (s : String) : String := ⟨s.data.map Char.toLower⟩

/-- Contiguous-sublist test on character lists (Python substring containment). -/
def subListOf (pat : List Char) : List Char → Bool
  | [] => pat.isEmpty
  | c :: rest => pat.isPrefixOf (c :: rest) || subListOf pat (rest)

/-- Python " pat in s " substring containment. -/
def strContainsSub (s pat : String) : Bool := subListOf pat.data s.data

/-- Python truthiness of the name field: None and the empty string are falsy. -/
def pyTruthyName : Option String → Bool
  | none => false
  | some s => !s.isEmpty

/-- Embedding of clean_data: drop rows whose name is falsy or whose
lower-cased name contains the substring "unknown". -/
def clean_data (data : List Entry) : List Entry :=
  data.filter (fun row =>
    pyTruthyName row.name &&
    !(strContainsSub (strLower (row.name.getD "")) "unknown"))

/-- Python isinstance(x, (int, float)): true for bool, int and float values
(bool is a subclass of int; NaN and the infinities are floats). -/
def isNumericType : TSValue → Bool
  | .tbool _ => true
  | .tint _ => true
  | .tfloat _ => true
  | .tnan => true
  | .tinf => true
  | .tninf => true
  | _ => false

/-- Python comparison t <= c for a numeric t (IEEE semantics: NaN compares
false against everything). -/
def numLE (t : TSValue) (c : ℚ) : Bool :=
  match t with
  | .tbool b => decide ((if b then (1 : ℚ) else 0) ≤ c)
  | .tint n => decide ((n : ℚ) ≤ c)
  | .tfloat q => decide (q ≤ c)
  | .tninf => true
  | _ => false

/-- Python comparison t > c for a numeric t (IEEE semantics: NaN compares
false against everything). -/
def numGT (t : TSValue) (c : ℚ) : Bool :=
  match t with
  | .tbool b => decide (c < (if b then (1 : ℚ) else 0))
  | .tint n => decide (c < (n : ℚ))
  | .tfloat q => decide (c < q)
  | .tinf => true
  | _ => false

/-- Embedding of is_valid_timestamp. -/
def is_valid_timestamp (t : TSValue) : Bool :=
  match t with
  | .tnone => false
  | t =>
    if !(isNumericType t) then false
    else if numLE t 0 || numGT t 9999999999 then false
    else true

/-- Python float(t) for a numeric timestamp value. -/
def tsToFloat : TSValue → ℚ
  | .tbool b => if b then 1 else 0
  | .tint n => n
  | .tfloat q => q
  | _ => 0

/-- The isinstance(v, (int, float)) test of the payload filter: int, float
and bool values pass. -/
def isNumericJ : JValue → Bool
  | .jint _ => true
  | .jfloat _ => true
  | .jbool _ => true
  | _ => false

/-- Python float(v) applied to a payload value that passed the test. -/
def jToFloat : JValue → ℚ
  | .jint n => n
  | .jfloat q => q
  | .jbool b => if b then 1 else 0
  | _ => 0

/-- The numeric_values dict comprehension of filter_and_process_data. -/
def numericValues (pd : List (String × JValue)) : List (String × ℚ) :=
  (pd.filter (fun kv => isNumericJ kv.2)).map (fun kv => (kv.1, jToFloat kv.2))

/-- The lower-cased ECU filter list; a Python-falsy (absent or empty) filter
becomes none. -/
def ecuFilters : Option (List String) → Option (List String)
  | none => none
  | some [] => none
  | some fs => some (fs.map strLower)

/-- The ECU-filter acceptance test of filter_and_process_data. -/
def ecuAccepts (f : Option (List String)) (e : Entry) : Bool :=
  match ecuFilters f with
  | none => true
  | some fs => fs.contains (strLower (e.name.getD ""))

/-- Normalization of a single entry: the per-entry body of the loop of
filter_and_process_data (none models a continue). -/
def normalizeEntry (ecu : Option (List String)) (e : Entry) : Option NormRecord :=
  if !(is_valid_timestamp e.timestamp) then none
  else if !(ecuAccepts ecu e) then none
  else
    match e.data with
    | none => none
    | some pd =>
      if pd.isEmpty then none
      else if (numericValues pd).isEmpty then none
      else some ⟨tsToFloat e.timestamp, numericValues pd⟩

/-- Embedding of filter_and_process_data. -/
def filter_and_process_data (data : List Entry) (ecu : Option (List String)) :
    List NormRecord :=
  data.filterMap (normalizeEntry ecu)

/-- The batch-mode record pipeline: read_file applies clean_data, then the
output functions apply filter_and_process_data. -/
def batch_pipeline (data : List Entry) (ecu : Option (List String)) : List NormRecord :=
  filter_and_process_data (clean_data data) ecu

/-- The watch-mode record pipeline: watch_file feeds the accumulated entries
directly to filter_and_process_data, without clean_data. -/
def watch_pipeline (data : List Entry) (ecu : Option (List String)) : List NormRecord :=
  filter_and_process_data data ecu

/-- Insertion of a record into a list sorted by timestamp. -/
def insertByTs (r : NormRecord) : List NormRecord → List NormRecord
  | [] => [r]
  | x :: xs => if r.timestamp ≤ x.timestamp then r :: x :: xs else x :: insertByTs r xs

/-- Sorting by timestamp (df.sort_values; tie order is unspecified by the
source, any order-preserving sort is a faithful model for the properties
proved here). -/
def sortByTs : List NormRecord → List NormRecord
  | [] => []
  | r :: rs => insertByTs r (sortByTs rs)

/-- Minimum of the timestamp column (defaults to 0 on the empty list, which
create_windows never queries). -/
def tminOf : List NormRecord → ℚ
  | [] => 0
  | r :: rs => rs.foldl (fun m x => min m x.timestamp) r.timestamp

/-- Maximum of the timestamp column. -/
def tmaxOf : List NormRecord → ℚ
  | [] => 0
  | r :: rs => rs.foldl (fun m x => max m x.timestamp) r.timestamp

/-- First-occurrence deduplication (pandas keeps one column per key). -/
def dedupSeen (seen : List String) : List String → List String
  | [] => []
  | c :: cs => if seen.contains c then dedupSeen seen cs else c :: dedupSeen (c :: seen) cs

/-- The numeric columns of the DataFrame built from the records, excluding
the timestamp column: every payload field name, in first-occurrence order.
All such columns have numeric dtype because normalized field values are
floats. -/
def colsOf (data : List NormRecord) : List String :=
  dedupSeen [] ((data.map (fun r => r.fields.map Prod.fst)).flatten)

/-- The values a field contributes inside one window: records lacking the
field hold NaN there and are skipped by the pandas aggregations. -/
def fieldVals (f : String) (rs : List NormRecord) : List ℚ :=
  rs.filterMap (fun r => r.fields.lookup f)

/-- Minimum of a list of rationals (0 on the empty list). -/
def minListQ : List ℚ → ℚ
  | [] => 0
  | x :: xs => xs.foldl min x

/-- Maximum of a list of rationals (0 on the empty list). -/
def maxListQ : List ℚ → ℚ
  | [] => 0
  | x :: xs => xs.foldl max x

/-- The four aggregates pandas computes for one column in one window.  A
none field models NaN output (skipna aggregation over zero values, or the
sample standard deviation of fewer than two values).  The std column is
represented by the sample variance fvar; the reported std is its square
root, and it is NaN exactly when fvar is none. -/
structure FieldStats where
  fmin : Option ℚ
  fmax : Option ℚ
  fmean : Option ℚ
  fvar : Option ℚ
deriving DecidableEq

/-- pandas agg of min, max, mean, std over the values a field takes in a
window: mean is the arithmetic mean, and the variance uses the n-1 divisor
(ddof = 1), NaN when fewer than two values contribute. -/
def fieldStats : List ℚ → FieldStats
  | [] => ⟨none, none, none, none⟩
  | v :: vs =>
    let n : ℚ := (v :: vs).length
    let mean := (v :: vs).sum / n
    { fmin := some (minListQ (v :: vs))
      fmax := some (maxListQ (v :: vs))
      fmean := some mean
      fvar :=
        if vs.isEmpty then none
        else some (((v :: vs).map (fun x => (x - mean) ^ 2)).sum / (n - 1)) }

/-- One emitted window: its index, bounds, the selected rows (window_df) and
the flattened per-column statistics. -/
structure Window where
  window_index : ℕ
  window_start : ℚ
  window_end : ℚ
  samples : List NormRecord
  stats : List (String × FieldStats)
deriving DecidableEq

/-- The row selection of one window slot:
df[(df.timestamp >= start) & (df.timestamp < end)]. -/
def windowSelect (df : List NormRecord) (s e : ℚ) : List NormRecord :=
  df.filter (fun r => decide (s ≤ r.timestamp) && decide (r.timestamp < e))

/-- Statistics of every numeric column over the selected rows. -/
def computeStats (cols : List String) (wdf : List NormRecord) :
    List (String × FieldStats) :=
  cols.map (fun c => (c, fieldStats (fieldVals c wdf)))

/-- The while loop of create_windows, with explicit fuel: none models a run
that still has iterations to perform after fuel steps (so a value none for
every fuel models non-termination).  A slot with an empty selection advances
without consuming the index; a non-empty slot with no numeric columns
consumes the index without emitting; otherwise a window is emitted. -/
def createWindowsAux (df : List NormRecord) (len step tmax : ℚ) (cols : List String) :
    ℕ → ℚ → ℕ → Option (List Window)
  | 0, start, _ => if start ≤ tmax then none else some []
  | fuel + 1, start, idx =>
    if start ≤ tmax then
      let en := start + len
      let wdf := windowSelect df start en
      if wdf.isEmpty then
        createWindowsAux df len step tmax cols fuel (start + step) idx
      else if cols.isEmpty then
        createWindowsAux df len step tmax cols fuel (start + step) (idx + 1)
      else
        match createWindowsAux df len step tmax cols fuel (start + step) (idx + 1) with
        | none => none
        | some ws => some (⟨idx, start, en, wdf, computeStats cols wdf⟩ :: ws)
    else some []

/-- Embedding of create_windows: sort, default the step to the window
length, then slide from the minimum to the maximum timestamp. -/
def create_windows (fuel : ℕ) (data : List NormRecord) (window_length : ℚ)
    (step : Option ℚ) : Option (List Window) :=
  if data.isEmpty then some []
  else
    let df := sortByTs data
    let st := step.getD window_length
    createWindowsAux df window_length st (tmaxOf df) (colsOf data) fuel (tminOf df) 0

/-- Python argument test " step is not None and step <= 0 ". -/
def stepNonpos : Option ℚ → Bool
  | none => false
  | some s => decide (s ≤ 0)

/-- Outcome of one dict_to_csv or dict_to_json call: which early return was
taken, whether the window loop failed to finish within the fuel, or the
windows handed to the serializer. -/
inductive RunResult where
  | noData
  | stepError
  | noValidEntries
  | noWindows
  | hang
  | wroteRaw
  | wrote (ws : List Window)
deriving DecidableEq

/-- Embedding of the control flow of dict_to_csv up to serialization. -/
def dict_to_csv (fuel : ℕ) (data : List Entry) (window_length : ℚ)
    (step : Option ℚ) (ecu : Option (List String)) : RunResult :=
  if data.isEmpty then .noData
  else if stepNonpos step then .stepError
  else
    let fd := filter_and_process_data data ecu
    if fd.isEmpty then .noValidEntries
    else
      match create_windows fuel fd window_length step with
      | none => .hang
      | some [] => .noWindows
      | some ws => .wrote ws

/-- Embedding of the control flow of dict_to_json up to serialization; with
no window length the raw data is dumped without any validation. -/
def dict_to_json (fuel : ℕ) (data : List Entry) (window_length : Option ℚ)
    (step : Option ℚ) (ecu : Option (List String)) : RunResult :=
  if data.isEmpty then .noData
  else
    match window_length with
    | none => .wroteRaw
    | some wl =>
      if stepNonpos step then .stepError
      else
        let fd := filter_and_process_data data ecu
        if fd.isEmpty then .noValidEntries
        else
          match create_windows fuel fd wl step with
          | none => .hang
          | some [] => .noWindows
          | some ws => .wrote ws

/-- Successive slices xs[i:i+bs] for i = 0, bs, 2*bs, ... (the chunk loops
of the buffered writers), with an explicit structural bound. -/
def chunkListAux (bs : ℕ) : ℕ → List α → List (List α)
  | 0, _ => []
  | _, [] => []
  | fuel + 1, x :: xs => (x :: xs.take (bs - 1)) :: chunkListAux bs fuel (xs.drop (bs - 1))

/-- The chunks of size bs of a list, in order (bs is assumed positive, as
the Python range-based loop raises or degenerates otherwise). -/
def chunkList (bs : ℕ) (xs : List α) : List (List α) := chunkListAux bs xs.length xs

/-- The UTF-8 byte-order mark written by encoding utf-8-sig. -/
def bomChar : Char := '\uFEFF'

/-- The characters stripped by Python str.strip of the two bracket
characters. -/
def isBracketChar (c : Char) : Bool := c == '[' || c == ']'

/-- Python s.strip applied with the bracket characters: remove them from
both ends. -/
def pyStripBrackets (l : List Char) : List Char :=
  ((l.dropWhile isBracketChar).reverse.dropWhile isBracketChar).reverse

/-- Join with a separator between consecutive pieces (the comma-writing
pattern of both serializers: a separator before every piece but the first). -/
def joinSep (sep : List Char) : List (List Char) → List Char
  | [] => []
  | [l] => l
  | l :: x :: xs => l ++ sep ++ joinSep sep (x :: xs)

/-- True when the csv writer used by pandas to_csv must quote a header cell
under its default QUOTE_MINIMAL policy: the cell contains the separator, a
double quote, or a line break. -/
def csvNeedsQuote (s : String) : Bool :=
  s.data.any (fun c => c == ';' || c == '"' || c == '\n' || c == '\r')

/-- Modelled from the external pandas/csv library: the QUOTE_MINIMAL
rendering of one header cell: quoted, with inner double quotes doubled,
exactly when quoting is needed, and verbatim otherwise. -/
def csvQuote (s : String) : List Char :=
  if csvNeedsQuote s then
    '"' :: (s.data.map (fun c => if c == '"' then ['"', '"'] else [c])).flatten ++ ['"']
  else s.data

/-- The header line buffered mode writes itself: the column names joined
with the separator, with no quoting, plus a newline. -/
def csvHeaderManual (cols : List String) : List Char :=
  joinSep ";".data (cols.map String.data) ++ ['\n']

/-- Modelled from the external pandas library: the header line to_csv
renders in single-shot mode, quoting each column name as QUOTE_MINIMAL
requires.  This differs from the manual join exactly on column names that
need quoting. -/
def csvHeaderPandas (cols : List String) : List Char :=
  joinSep ";".data (cols.map csvQuote) ++ ['\n']

/-- Single-shot CSV serialization: results_df.to_csv with utf-8-sig writes
the pandas-rendered header line and then the data rows.  The data rows are
already-rendered character lists (each including its line terminator) and
are shared with buffered mode, because both modes render rows through the
same to_csv call on the same frame; only the header rendering differs. -/
def csv_single (cols : List String) (rows : List (List Char)) : List Char :=
  [bomChar] ++ csvHeaderPandas cols ++ rows.flatten

/-- Buffered CSV serialization: the file is opened with utf-8-sig, the
manually joined header line is written once, then each chunk of rows is
rendered without a header and appended. -/
def csv_buffered (cols : List String) (rows : List (List Char)) (bs : ℕ) : List Char :=
  [bomChar] ++ csvHeaderManual cols ++ ((chunkList bs rows).map List.flatten).flatten

/-- Modelled from the external orjson library: dumps of a list with
OPT_INDENT_2 renders the empty list as a bare bracket pair and otherwise an
opening bracket, newline, the item renderings joined by a comma and a
newline, a final newline and the closing bracket.  The rendering of one
item is abstracted as a parameter; with two-space indentation it begins
with two spaces. -/
def orjsonArray (renders : List (List Char)) : List Char :=
  if renders.isEmpty then "[]".data
  else "[\n".data ++ joinSep ",\n".data renders ++ "\n]".data

/-- Single-shot JSON serialization of dict_to_json: one dumps call. -/
def json_single (ren : α → List Char) (items : List α) : List Char :=
  orjsonArray (items.map ren)

/-- Buffered JSON serialization of dict_to_json: an opening bracket and
newline, then for each chunk the dumps output with brackets stripped,
preceded by a comma and newline for every chunk after the first, and a
final newline and closing bracket. -/
def json_buffered (ren : α → List Char) (items : List α) (bs : ℕ) : List Char :=
  "[\n".data ++
    joinSep ",\n".data
      ((chunkList bs items).map (fun c => pyStripBrackets (orjsonArray (c.map ren)))) ++
    "\n]".data

/-! ### Definitions taken from the wording of the specification, for
comparison against the embedded code. -/

/-- Spec wording for claim C4: a finite number (bool counts as its numeric
value; NaN and the infinities are not finite). -/
def isFiniteNum : TSValue → Bool
  | .tbool _ => true
  | .tint _ => true
  | .tfloat _ => true
  | _ => false

/-- The numeric value of a finite TSValue. -/
def numValOf : TSValue → ℚ
  | .tbool b => if b then 1 else 0
  | .tint n => n
  | .tfloat q => q
  | _ => 0

/-- Spec wording for claim C4: valid iff a finite number, strictly positive,
and at most 9999999999. -/
def specValidTimestamp (t : TSValue) : Bool :=
  isFiniteNum t && decide (0 < numValOf t) && decide (numValOf t ≤ 9999999999)

/-- Spec wording for claim C3: the value is an integer or floating-point
number (booleans are not). -/
def isIntOrFloat : JValue → Bool
  | .jint _ => true
  | .jfloat _ => true
  | _ => false

/-- Spec wording for claim C3: the per-kind filter keeping integer and
floating-point entries only. -/
def specNumericValues (pd : List (String × JValue)) : List (String × ℚ) :=
  (pd.filter (fun kv => isIntOrFloat kv.2)).map (fun kv => (kv.1, jToFloat kv.2))

/-- Spec wording for claim C5: the default exclusion predicate, true when the
source tag contains the word unknown case-insensitively. -/
def specUnknownTag (e : Entry) : Bool :=
  strContainsSub (strLower (e.name.getD "")) "unknown"

/-- Concrete record used by witness instantiations. -/
def wrec : NormRecord := ⟨1, [("a", 2)]⟩

/-- The single window produced from wrec with length one and step one. -/
def wwin : Window := ⟨0, 1, 2, [wrec], [("a", ⟨some 2, some 2, some 2, none⟩)]⟩

/-- Concrete three-sample records at timestamps 0, 1 and 2. -/
def s0 : NormRecord := ⟨0, [("a", 0)]⟩

/-- Second of the three-sample records. -/
def s1 : NormRecord := ⟨1, [("a", 10)]⟩

/-- Third of the three-sample records. -/
def s2 : NormRecord := ⟨2, [("a", 20)]⟩

/-- The single window of the three-sample data with length three: mean 10
and Bessel-corrected variance 100 (standard deviation 10). -/
def sw : Window := ⟨0, 0, 3, [s0, s1, s2], [("a", ⟨some 0, some 20, some 10, some 100⟩)]⟩

/-- Concrete record at timestamp 0 used by the boundary witness. -/
def r01 : NormRecord := ⟨0, [("a", 1)]⟩

/-- Concrete record at timestamp 2, exactly on the boundary of the first
window of length two. -/
def r25 : NormRecord := ⟨2, [("a", 5)]⟩

/-- First window over r01 and r25 with length and step two: it excludes the
record at timestamp 2. -/
def w02 : Window := ⟨0, 0, 2, [r01], [("a", ⟨some 1, some 1, some 1, none⟩)]⟩

/-- Second window over r01 and r25 with length and step two. -/
def w24 : Window := ⟨1, 2, 4, [r25], [("a", ⟨some 5, some 5, some 5, none⟩)]⟩

/-! ### Helper lemmas -/

theorem mem_insertByTs {a r : NormRecord} {l : List NormRecord} :
    a ∈ insertByTs r l ↔ a = r ∨ a ∈ l := by
  induction l with
  | nil => simp [insertByTs]
  | cons x xs ih =>
    by_cases h : r.timestamp ≤ x.timestamp
    · simp [insertByTs, h]
    · simp only [insertByTs, if_neg h, List.mem_cons, ih]
      tauto

theorem mem_sortByTs {a : NormRecord} {l : List NormRecord} :
    a ∈ sortByTs l ↔ a ∈ l := by
  induction l with
  | nil => simp [sortByTs]
  | cons x xs ih => simp [sortByTs, mem_insertByTs, ih]

theorem fapd_fields_ne_nil (data : List Entry) (ecu : Option (List String)) :
    ∀ r ∈ filter_and_process_data data ecu, r.fields ≠ [] := by
  intro r hr
  simp only [filter_and_process_data, List.mem_filterMap] at hr
  obtain ⟨e, -, he⟩ := hr
  unfold normalizeEntry at he
  split at he
  · simp at he
  split at he
  · simp at he
  split at he
  · simp at he
  split at he
  · simp at he
  split at he
  · simp at he
  rename_i pd hpd hnv
  cases he
  simpa [List.isEmpty_iff] using hnv

theorem dedupSeen_nil_ne_nil {l : List String} (hl : l ≠ []) :
    dedupSeen [] l ≠ [] := by
  cases l with
  | nil => simp at hl
  | cons c cs => simp [dedupSeen]

theorem colsOf_ne_nil {data : List NormRecord} (hdata : data ≠ [])
    (hf : ∀ r ∈ data, r.fields ≠ []) : colsOf data ≠ [] := by
  apply dedupSeen_nil_ne_nil
  cases data with
  | nil => simp at hdata
  | cons r rs =>
    have hr := hf r (by simp)
    cases hfields : r.fields with
    | nil => exact absurd hfields hr
    | cons p ps => simp [hfields]

theorem createWindowsAux_windows (df : List NormRecord) (len step tmax : ℚ)
    (cols : List String) :
    ∀ (fuel : ℕ) (start : ℚ) (idx : ℕ) (ws : List Window),
      createWindowsAux df len step tmax cols fuel start idx = some ws →
      ∀ w ∈ ws,
        w.window_end = w.window_start + len ∧
        w.samples = windowSelect df w.window_start (w.window_start + len) ∧
        w.samples ≠ [] ∧
        w.stats = computeStats cols w.samples := by
  intro fuel
  induction fuel with
  | zero =>
    intro start idx ws h
    simp only [createWindowsAux] at h
    split at h
    · simp at h
    · cases h
      intro w hw
      simp at hw
  | succ fuel ih =>
    intro start idx ws h
    simp only [createWindowsAux] at h
    split at h
    · split at h
      · exact ih _ _ _ h
      · rename_i hempty
        split at h
        · exact ih _ _ _ h
        · split at h
          · simp at h
          · rename_i ws' hrec
            cases h
            intro w hw
            rcases List.mem_cons.mp hw with hw | hw
            · subst hw
              refine ⟨rfl, rfl, ?_, rfl⟩
              simpa [List.isEmpty_iff] using hempty
            · exact ih _ _ _ hrec w hw
    · cases h
      intro w hw
      simp at hw

theorem createWindowsAux_indices (df : List NormRecord) (len step tmax : ℚ)
    (cols : List String) (hcols : cols ≠ []) :
    ∀ (fuel : ℕ) (start : ℚ) (idx : ℕ) (ws : List Window),
      createWindowsAux df len step tmax cols fuel start idx = some ws →
      ws.map Window.window_index = List.range' idx ws.length := by
  intro fuel
  induction fuel with
  | zero =>
    intro start idx ws h
    simp only [createWindowsAux] at h
    split at h
    · simp at h
    · cases h
      simp
  | succ fuel ih =>
    intro start idx ws h
    simp only [createWindowsAux] at h
    split at h
    · split at h
      · exact ih _ _ _ h
      · split at h
        · rename_i hc
          exact absurd (List.isEmpty_iff.mp hc) hcols
        · split at h
          · simp at h
          · rename_i ws' hrec
            cases h
            simpa [List.range'_succ] using ih _ _ _ hrec
    · cases h
      simp

theorem createWindowsAux_complete (df : List NormRecord) (len step tmax : ℚ)
    (cols : List String) (hstep : 0 < step) (hcols : cols ≠ []) :
    ∀ (fuel : ℕ) (start : ℚ) (idx : ℕ) (ws : List Window),
      createWindowsAux df len step tmax cols fuel start idx = some ws →
      ∀ k : ℕ, start + k * step ≤ tmax →
        windowSelect df (start + k * step) (start + k * step + len) ≠ [] →
        ∃ w ∈ ws, w.window_start = start + k * step := by
  intro fuel
  induction fuel with
  | zero =>
    intro start idx ws h k hk _
    simp only [createWindowsAux] at h
    split at h
    · simp at h
    · rename_i hgt
      exfalso
      apply hgt
      have : (0 : ℚ) ≤ k * step := by positivity
      linarith
  | succ fuel ih =>
    intro start idx ws h k hk hsel
    have harg : ∀ k : ℕ, (start + step) + (k : ℚ) * step = start + ((k + 1 : ℕ) : ℚ) * step := by
      intro k
      push_cast
      ring
    simp only [createWindowsAux] at h
    split at h
    · split at h
      · rename_i hempty
        cases k with
        | zero =>
          exfalso
          apply hsel
          have h0 : start + ((0 : ℕ) : ℚ) * step = start := by push_cast; ring
          rw [h0]
          exact List.isEmpty_iff.mp hempty
        | succ k =>
          have hk' : (start + step) + (k : ℚ) * step ≤ tmax := by rw [harg k]; exact hk
          have hsel' :
              windowSelect df ((start + step) + (k : ℚ) * step)
                ((start + step) + (k : ℚ) * step + len) ≠ [] := by
            rw [harg k]; exact hsel
          obtain ⟨w, hw, hws⟩ := ih _ _ _ h k hk' hsel'
          exact ⟨w, hw, by rw [hws, harg k]⟩
      · split at h
        · rename_i hc
          exact absurd (List.isEmpty_iff.mp hc) hcols
        · split at h
          · simp at h
          · rename_i ws' hrec
            cases h
            cases k with
            | zero =>
              refine ⟨_, List.mem_cons_self _ _, ?_⟩
              push_cast
              ring
            | succ k =>
              have hk' : (start + step) + (k : ℚ) * step ≤ tmax := by rw [harg k]; exact hk
              have hsel' :
                  windowSelect df ((start + step) + (k : ℚ) * step)
                    ((start + step) + (k : ℚ) * step + len) ≠ [] := by
                rw [harg k]; exact hsel
              obtain ⟨w, hw, hws⟩ := ih _ _ _ hrec k hk' hsel'
              exact ⟨w, List.mem_cons_of_mem _ hw, by rw [hws, harg k]⟩
    · rename_i hgt
      exfalso
      apply hgt
      have : (0 : ℚ) ≤ k * step := by positivity
      linarith

theorem createWindowsAux_terminates (df : List NormRecord) (len step tmax : ℚ)
    (cols : List String) :
    ∀ (n : ℕ) (start : ℚ) (idx : ℕ), tmax < start + n * step →
      ∃ ws, createWindowsAux df len step tmax cols n start idx = some ws := by
  intro n
  induction n with
  | zero =>
    intro start idx h
    push_cast at h
    refine ⟨[], ?_⟩
    simp only [createWindowsAux]
    rw [if_neg (not_le.mpr (by linarith))]
  | succ n ih =>
    intro start idx h
    by_cases hle : start ≤ tmax
    · have h' : tmax < (start + step) + n * step := by push_cast at h ⊢; linarith
      simp only [createWindowsAux]
      rw [if_pos hle]
      by_cases hemp : (windowSelect df start (start + len)).isEmpty
      · rw [if_pos hemp]
        exact ih _ idx h'
      · rw [if_neg hemp]
        by_cases hcols : cols.isEmpty
        · rw [if_pos hcols]
          exact ih _ _ h'
        · rw [if_neg hcols]
          obtain ⟨ws, hws⟩ := ih (start + step) (idx + 1) h'
          rw [hws]
          exact ⟨_, rfl⟩
    · refine ⟨[], ?_⟩
      simp only [createWindowsAux]
      rw [if_neg hle]

theorem createWindowsAux_nonpos_step (df : List NormRecord) (len step tmax : ℚ)
    (cols : List String) (hstep : step ≤ 0) :
    ∀ (fuel : ℕ) (start : ℚ) (idx : ℕ), start ≤ tmax →
      createWindowsAux df len step tmax cols fuel start idx = none := by
  intro fuel
  induction fuel with
  | zero =>
    intro start idx hle
    simp only [createWindowsAux]
    rw [if_pos hle]
  | succ fuel ih =>
    intro start idx hle
    have hle' : start + step ≤ tmax := by linarith
    simp only [createWindowsAux]
    rw [if_pos hle]
    by_cases hemp : (windowSelect df start (start + len)).isEmpty
    · rw [if_pos hemp]
      exact ih _ _ hle'
    · rw [if_neg hemp]
      by_cases hcols : cols.isEmpty
      · rw [if_pos hcols]
        exact ih _ _ hle'
      · rw [if_neg hcols]
        rw [ih _ _ hle']

theorem chunkListAux_flatten {α : Type} (bs : ℕ) :
    ∀ (fuel : ℕ) (xs : List α), xs.length ≤ fuel →
      (chunkListAux bs fuel xs).flatten = xs := by
  intro fuel
  induction fuel with
  | zero =>
    intro xs hxs
    rw [Nat.le_zero, List.length_eq_zero] at hxs
    subst hxs
    rfl
  | succ fuel ih =>
    intro xs hxs
    cases xs with
    | nil => rfl
    | cons x xs =>
      simp only [chunkListAux, List.flatten_cons]
      rw [ih (xs.drop (bs - 1)) ?_]
      · simp [List.take_append_drop]
      · have h1 : (xs.drop (bs - 1)).length ≤ xs.length := by
          simp [List.length_drop]
        have h2 : xs.length ≤ fuel := by
          simpa using hxs
        omega

theorem flatten_map_flatten {α : Type} :
    ∀ L : List (List (List α)), (L.map List.flatten).flatten = L.flatten.flatten := by
  intro L
  induction L with
  | nil => rfl
  | cons l ls ih => simp [ih]

theorem dropWhile_append_last {p : Char → Bool} {c : Char} (hc : p c = false) :
    ∀ l : List Char, ∃ u, List.dropWhile p (l ++ [c]) = u ++ [c] := by
  intro l
  induction l with
  | nil => exact ⟨[], by simp [List.dropWhile_cons, hc]⟩
  | cons a l ih =>
    by_cases ha : p a
    · obtain ⟨u, hu⟩ := ih
      exact ⟨u, by simp [List.dropWhile_cons, ha, hu]⟩
    · exact ⟨a :: l, by simp [List.dropWhile_cons, ha]⟩

theorem pyStripBrackets_head {c : Char} (hc : isBracketChar c = false) (t : List Char) :
    ∃ z, pyStripBrackets ('[' :: c :: t) = c :: z := by
  unfold pyStripBrackets
  have h1 : List.dropWhile isBracketChar ('[' :: c :: t) = c :: t := by
    rw [List.dropWhile_cons, if_pos (by decide), List.dropWhile_cons, if_neg (by simp [hc])]
  rw [h1, List.reverse_cons]
  obtain ⟨u, hu⟩ := dropWhile_append_last hc t.reverse
  rw [hu]
  exact ⟨u.reverse, by simp⟩

theorem joinSep_head (sep : List Char) (c : Char) (t : List Char)
    (ls : List (List Char)) :
    ∃ z, joinSep sep ((c :: t) :: ls) = c :: z := by
  cases ls with
  | nil => exact ⟨t, rfl⟩
  | cons x xs => exact ⟨t ++ sep ++ joinSep sep (x :: xs), by simp [joinSep]⟩

theorem csvQuote_of_plain {s : String} (h : csvNeedsQuote s = false) :
    csvQuote s = s.data := by
  unfold csvQuote
  rw [if_neg (by simp [h])]

theorem map_csvQuote_eq :
    ∀ cols : List String, (∀ c ∈ cols, csvNeedsQuote c = false) →
      cols.map csvQuote = cols.map String.data := by
  intro cols
  induction cols with
  | nil => intro _; rfl
  | cons c cs ih =>
    intro hq
    simp only [List.map_cons]
    rw [csvQuote_of_plain (hq c (List.mem_cons_self c cs)),
      ih (fun x hx => hq x (List.mem_cons_of_mem c hx))]

theorem csvHeaderPandas_eq_manual {cols : List String}
    (hq : ∀ c ∈ cols, csvNeedsQuote c = false) :
    csvHeaderPandas cols = csvHeaderManual cols := by
  unfold csvHeaderPandas csvHeaderManual
  rw [map_csvQuote_eq cols hq]

/-- Claim C1 counterexample: neither format is byte-for-byte identical.  For
JSON, a one-element list with chunk size 1 (the chunk is the whole list)
already differs: the bracket-stripping of the chunk leaves the inner
newlines of the chunk rendering in place, so an extra blank line appears
after the opening bracket and before the closing bracket.  For CSV, a column
name containing the separator differs in the header: buffered mode joins the
column names verbatim while single-shot pandas quotes the name. -/
theorem c1_not_bytewise_counterexample :
    json_buffered (fun _ : ℕ => "  \x7b\x7d".data) [0] 1 ≠
      json_single (fun _ : ℕ => "  \x7b\x7d".data) [0] ∧
    csv_buffered ["min_a;b"] ["1;2\n".data] 1 ≠ csv_single ["min_a;b"] ["1;2\n".data] := by
  decide

/-- Claim C1 amended: buffered and single-shot CSV serialization agree
byte-for-byte for every positive chunk size provided no column name needs
CSV quoting (contains no separator, double quote, or line break) - the
buffered header is an unquoted join while single-shot renders it through
pandas with QUOTE_MINIMAL, so the files differ whenever some column name
needs quoting; and buffered JSON serialization never agrees with single-shot
JSON on a non-empty item list: its second and third characters are a newline
pair where single-shot has a newline followed by the two-space indentation
of the first item. -/
theorem c1_csv_conditional_json_not {α : Type} (cols : List String)
    (rows : List (List Char)) (bs : ℕ) (hbs : 1 ≤ bs)
    (hq : ∀ c ∈ cols, csvNeedsQuote c = false)
    (ren : α → List Char) (items : List α) (i : α) (rest : List α)
    (hitems : items = i :: rest)
    (hren : ∀ a, ∃ t, ren a = ' ' :: t) :
    csv_buffered cols rows bs = csv_single cols rows ∧
    json_buffered ren items bs ≠ json_single ren items := by
  constructor
  · unfold csv_buffered csv_single chunkList
    rw [flatten_map_flatten, chunkListAux_flatten bs rows.length rows le_rfl,
      csvHeaderPandas_eq_manual hq]
  · subst hitems
    obtain ⟨t0, ht0⟩ := hren i
    -- the single-shot output starts with bracket, newline, space
    have hsingle : ∃ z, json_single ren (i :: rest) = '[' :: '\n' :: ' ' :: z := by
      unfold json_single orjsonArray
      rw [if_neg (by simp)]
      obtain ⟨z, hz⟩ := joinSep_head ",\n".data ' ' t0 (rest.map ren)
      refine ⟨z ++ "\n]".data, ?_⟩
      simp only [List.map_cons, ht0, hz]
      rfl
    -- the buffered output starts with bracket, newline, newline
    have hbuf : ∃ z, json_buffered ren (i :: rest) bs = '[' :: '\n' :: '\n' :: z := by
      unfold json_buffered chunkList
      have hchunk :
          chunkListAux bs (i :: rest).length (i :: rest) =
            (i :: rest.take (bs - 1)) :: chunkListAux bs rest.length (rest.drop (bs - 1)) := by
        simp [chunkListAux]
      rw [hchunk]
      simp only [List.map_cons]
      -- the first stripped chunk starts with a newline
      have hdump :
          ∃ z, orjsonArray (ren i :: (rest.take (bs - 1)).map ren) =
            '[' :: '\n' :: ' ' :: z := by
        unfold orjsonArray
        rw [if_neg (by simp), ht0]
        obtain ⟨z, hz⟩ := joinSep_head ",\n".data ' ' t0 ((rest.take (bs - 1)).map ren)
        refine ⟨z ++ "\n]".data, ?_⟩
        rw [hz]
        rfl
      obtain ⟨z1, hz1⟩ := hdump
      rw [hz1]
      obtain ⟨z2, hz2⟩ := pyStripBrackets_head (c := '\n') (by decide) (' ' :: z1)
      rw [hz2]
      obtain ⟨z3, hz3⟩ :=
        joinSep_head ",\n".data '\n' z2
          ((chunkListAux bs rest.length (rest.drop (bs - 1))).map
            (fun c => pyStripBrackets (orjsonArray (c.map ren))))
      rw [hz3]
      exact ⟨z3 ++ "\n]".data, rfl⟩
    obtain ⟨z, hz⟩ := hsingle
    obtain ⟨z', hz'⟩ := hbuf
    intro heq
    rw [hz, hz'] at heq
    simp at heq

/-- Claim C1 witness: the conditional CSV equality and the JSON inequality
instantiated at concrete quote-free column names, one data row and two
items, with chunk size 1. -/
theorem c1_witness :
    csv_buffered ["min_a", "max_a"] ["1;2\n".data] 1 =
      csv_single ["min_a", "max_a"] ["1;2\n".data] ∧
    json_buffered (fun _ : ℕ => "  \x7b\x7d".data) [0, 1] 1 ≠
      json_single (fun _ : ℕ => "  \x7b\x7d".data) [0, 1] := by
  have h := c1_csv_conditional_json_not ["min_a", "max_a"] ["1;2\n".data] 1 le_rfl
    (by intro c hc; simp at hc; rcases hc with rfl | rfl <;> decide)
    (fun _ : ℕ => "  \x7b\x7d".data) [0, 1] 0 [1] rfl
    (fun _ => ⟨" \x7b\x7d".data, rfl⟩)
  exact h

/-- Claim C10: the timestamp validity check accepts the boolean True (it is
an int by the isinstance test and compares as 1) and rejects False (compares
as 0), and a record with timestamp True is normalized with timestamp 1. -/
theorem c10_bool_timestamp_accepted :
    is_valid_timestamp (.tbool true) = true ∧
    is_valid_timestamp (.tbool false) = false ∧
    filter_and_process_data [⟨some "E", .tbool true, some [("A", JValue.jint 3)]⟩] none
      = [⟨1, [("A", 3)]⟩] := by
  decide

/-- Claim C4 counterexample: NaN is accepted by the timestamp check (both
IEEE comparisons against the bounds are false), although it is not a finite
number, so the stated equivalence with being finite, positive and bounded
fails at NaN. -/
theorem c4_nan_accepted_counterexample :
    is_valid_timestamp .tnan = true ∧
    isFiniteNum .tnan = false ∧
    specValidTimestamp .tnan = false := by
  decide

/-- Claim C4 amended: the check accepts a value iff it is a finite number in
the half-open range (0, 9999999999], or it is NaN (which the code fails to
exclude); the stated boundary cases all hold, and a record with an invalid
timestamp is rejected by the normalizer. -/
theorem c4_timestamp_validity_amended :
    (∀ t, is_valid_timestamp t = true ↔
        (specValidTimestamp t = true ∨ t = TSValue.tnan)) ∧
    is_valid_timestamp (.tint 0) = false ∧
    is_valid_timestamp (.tint 9999999999) = true ∧
    is_valid_timestamp (.tint 10000000000) = false ∧
    (∀ q : ℚ, q < 0 → is_valid_timestamp (.tfloat q) = false) ∧
    is_valid_timestamp .tnone = false ∧
    (∀ (e : Entry) (ecu : Option (List String)),
        is_valid_timestamp e.timestamp = false →
        filter_and_process_data [e] ecu = []) := by
  refine ⟨?_, by decide, by decide, by decide, ?_, by decide, ?_⟩
  · intro t
    cases t with
    | tnone => simp [is_valid_timestamp, specValidTimestamp, isFiniteNum]
    | tbool b =>
      cases b <;>
        simp [is_valid_timestamp, isNumericType, numLE, numGT, specValidTimestamp,
          isFiniteNum, numValOf]
    | tint n =>
      simp [is_valid_timestamp, isNumericType, numLE, numGT, specValidTimestamp,
        isFiniteNum, numValOf, not_or]
    | tfloat q =>
      simp [is_valid_timestamp, isNumericType, numLE, numGT, specValidTimestamp,
        isFiniteNum, numValOf, not_or]
    | tnan => simp [is_valid_timestamp, isNumericType, numLE, numGT]
    | tinf => simp [is_valid_timestamp, isNumericType, numLE, numGT, specValidTimestamp, isFiniteNum]
    | tninf => simp [is_valid_timestamp, isNumericType, numLE, numGT, specValidTimestamp, isFiniteNum]
    | tstr s => simp [is_valid_timestamp, isNumericType, specValidTimestamp, isFiniteNum]
  · intro q hq
    simp [is_valid_timestamp, isNumericType, numLE, numGT]
    intro h0
    linarith
  · intro e ecu h
    simp [filter_and_process_data, List.filterMap_cons, normalizeEntry, h]

/-- Claim C4 witness: the amended theorem applied at a concrete negative
float and at a concrete record with a None timestamp. -/
theorem c4_witness :
    is_valid_timestamp (.tfloat (-5)) = false ∧
    filter_and_process_data [⟨some "E", .tnone, some [("A", JValue.jint 1)]⟩] none = [] := by
  exact ⟨c4_timestamp_validity_amended.2.2.2.2.1 (-5) (by norm_num),
    c4_timestamp_validity_amended.2.2.2.2.2.2 _ none (by decide)⟩

/-- Claim C3 counterexample: a boolean payload value passes the isinstance
test of the code (bool is a subclass of int) and is kept as 1.0, although
the claim says booleans are dropped: the spec-worded filter keeps nothing
from the payload and would reject the record. -/
theorem c3_bool_kept_counterexample :
    filter_and_process_data [⟨some "E", .tint 5, some [("A", JValue.jbool true)]⟩] none
      = [⟨5, [("A", 1)]⟩] ∧
    isIntOrFloat (JValue.jbool true) = false ∧
    specNumericValues [("A", JValue.jbool true)] = [] := by
  decide

/-- Claim C3 amended: a payload entry is kept iff its value is an integer,
float, or boolean (passed through float, so True becomes 1.0 and False 0.0);
string values are dropped; a record whose resulting numeric map is empty is
rejected; and the record with payload A = 1, B = "x" retains only A. -/
theorem c3_numeric_filter_amended (e : Entry) (pd : List (String × JValue))
    (hts : is_valid_timestamp e.timestamp = true) (hd : e.data = some pd) :
    (∀ (k : String) (q : ℚ),
        (k, q) ∈ numericValues pd ↔
          ∃ v, (k, v) ∈ pd ∧ isNumericJ v = true ∧ jToFloat v = q) ∧
    filter_and_process_data [e] none =
      (if numericValues pd = [] then []
       else [⟨tsToFloat e.timestamp, numericValues pd⟩]) ∧
    numericValues [("A", JValue.jint 1), ("B", JValue.jstr "x")] = [("A", 1)] := by
  refine ⟨?_, ?_, by decide⟩
  · intro k q
    simp only [numericValues, List.mem_map, List.mem_filter]
    constructor
    · rintro ⟨⟨k', v⟩, ⟨hmem, hnum⟩, hpair⟩
      cases hpair
      exact ⟨v, hmem, hnum, rfl⟩
    · rintro ⟨v, hmem, hnum, hval⟩
      exact ⟨(k, v), ⟨hmem, hnum⟩, by rw [hval]⟩
  · by_cases hpd : pd = []
    · subst hpd
      simp [filter_and_process_data, List.filterMap_cons, normalizeEntry, hts, hd,
        ecuAccepts, ecuFilters, numericValues]
    · by_cases hnv : numericValues pd = []
      · simp [filter_and_process_data, List.filterMap_cons, normalizeEntry, hts, hd,
          ecuAccepts, ecuFilters, hpd, hnv, List.isEmpty_iff]
      · simp [filter_and_process_data, List.filterMap_cons, normalizeEntry, hts, hd,
          ecuAccepts, ecuFilters, hpd, hnv, List.isEmpty_iff]

/-- Claim C3 witness: the amended theorem applied at the record with payload
A = 1, B = "x". -/
theorem c3_witness :
    (∀ (k : String) (q : ℚ),
        (k, q) ∈ numericValues [("A", JValue.jint 1), ("B", JValue.jstr "x")] ↔
          ∃ v, (k, v) ∈ [("A", JValue.jint 1), ("B", JValue.jstr "x")] ∧
            isNumericJ v = true ∧ jToFloat v = q) ∧
    filter_and_process_data
        [⟨some "E", .tint 5, some [("A", JValue.jint 1), ("B", JValue.jstr "x")]⟩] none =
      (if numericValues [("A", JValue.jint 1), ("B", JValue.jstr "x")] = [] then []
       else [⟨tsToFloat (.tint 5), numericValues [("A", JValue.jint 1), ("B", JValue.jstr "x")]⟩]) ∧
    numericValues [("A", JValue.jint 1), ("B", JValue.jstr "x")] = [("A", 1)] :=
  c3_numeric_filter_amended _ _ (by decide) rfl

theorem normalizeEntry_some_filter (fs : List String) (hfs : fs ≠ []) (e : Entry) :
    normalizeEntry (some fs) e =
      (if (fs.map strLower).contains (strLower (e.name.getD "")) then normalizeEntry none e
       else none) := by
  have hacc : ecuAccepts (some fs) e = (fs.map strLower).contains (strLower (e.name.getD "")) := by
    cases fs with
    | nil => exact absurd rfl hfs
    | cons f fs' => rfl
  unfold normalizeEntry
  rw [hacc, show ecuAccepts none e = true from rfl]
  cases hv : is_valid_timestamp e.timestamp <;>
    cases hc : (List.map strLower fs).contains (strLower (e.name.getD "")) <;>
      simp

/-- Claim C5 counterexample: a record whose source tag contains "unknown"
with no filter provided survives the watch-mode pipeline, which never runs
clean_data: the default exclusion is not applied in watch mode. -/
theorem c5_watch_unknown_counterexample :
    specUnknownTag ⟨some "Unknown", .tint 5, some [("A", JValue.jint 1)]⟩ = true ∧
    watch_pipeline [⟨some "Unknown", .tint 5, some [("A", JValue.jint 1)]⟩] none
      = [⟨5, [("A", 1)]⟩] := by
  decide

/-- Claim C5 amended: the unknown-substring exclusion (together with a
falsy-name exclusion) is applied only by the batch pipeline, and there even
when a filter is provided; the watch pipeline applies only the filter; the
filter, when provided and non-empty, is a case-insensitive exact match
against its entries. -/
theorem c5_source_filter_amended (e : Entry) (fs : List String) (hfs : fs ≠ []) :
    watch_pipeline [e] none = (normalizeEntry none e).toList ∧
    watch_pipeline [e] (some fs) =
      (if (fs.map strLower).contains (strLower (e.name.getD "")) then
         (normalizeEntry none e).toList
       else []) ∧
    batch_pipeline [e] none =
      (if pyTruthyName e.name = true ∧ specUnknownTag e = false then
         (normalizeEntry none e).toList
       else []) ∧
    batch_pipeline [e] (some fs) =
      (if pyTruthyName e.name = true ∧ specUnknownTag e = false then
         (if (fs.map strLower).contains (strLower (e.name.getD "")) then
            (normalizeEntry none e).toList
          else [])
       else []) := by
  refine ⟨?_, ?_, ?_, ?_⟩
  · rw [watch_pipeline, filter_and_process_data]
    cases h : normalizeEntry none e <;> simp [h]
  · rw [watch_pipeline, filter_and_process_data]
    simp only [List.filterMap_cons, List.filterMap_nil]
    rw [normalizeEntry_some_filter fs hfs e]
    by_cases hc : (fs.map strLower).contains (strLower (e.name.getD "")) <;>
      simp only [hc, if_true, if_false] <;>
        cases h : normalizeEntry none e <;> simp [h]
  · rw [batch_pipeline, clean_data, filter_and_process_data]
    by_cases h1 : pyTruthyName e.name <;>
      by_cases h2 : specUnknownTag e <;>
        simp only [specUnknownTag] at h2 <;>
          cases h : normalizeEntry none e <;>
            simp [List.filter_cons, specUnknownTag, h1, h2, h]
  · rw [batch_pipeline, clean_data, filter_and_process_data]
    by_cases h1 : pyTruthyName e.name = true
    · by_cases h2 : strContainsSub (strLower (e.name.getD "")) "unknown" = true
      · have hpred : (pyTruthyName e.name &&
            !(strContainsSub (strLower (e.name.getD "")) "unknown")) = false := by
          simp [h1, h2]
        simp [List.filter_cons, hpred, specUnknownTag, h1, h2]
      · have hpred : (pyTruthyName e.name &&
            !(strContainsSub (strLower (e.name.getD "")) "unknown")) = true := by
          simp [h1, h2]
        simp only [List.filter_cons, hpred, if_true, List.filter_nil,
          List.filterMap_cons, List.filterMap_nil]
        rw [normalizeEntry_some_filter fs hfs e]
        by_cases hc : (List.map strLower fs).contains (strLower (e.name.getD "")) = true
        · simp only [hc, if_true]
          simp [specUnknownTag, h1, h2, hc]
          cases h : normalizeEntry none e <;> simp [h]
        · rw [if_neg hc, if_neg hc]
          simp
    · have hpred : (pyTruthyName e.name &&
          !(strContainsSub (strLower (e.name.getD "")) "unknown")) = false := by
        simp [h1]
      simp [List.filter_cons, hpred, h1]

/-- Claim C5 witness: the amended theorem applied at the record with tag
"Unknown" and the one-entry filter list containing "unknown". -/
theorem c5_witness :
    watch_pipeline [⟨some "Unknown", .tint 5, some [("A", JValue.jint 1)]⟩] none =
      (normalizeEntry none ⟨some "Unknown", .tint 5, some [("A", JValue.jint 1)]⟩).toList ∧
    watch_pipeline [⟨some "Unknown", .tint 5, some [("A", JValue.jint 1)]⟩] (some ["unknown"]) =
      (if (["unknown"].map strLower).contains
            (strLower ((⟨some "Unknown", .tint 5, some [("A", JValue.jint 1)]⟩ : Entry).name.getD "")) then
         (normalizeEntry none ⟨some "Unknown", .tint 5, some [("A", JValue.jint 1)]⟩).toList
       else []) ∧
    batch_pipeline [⟨some "Unknown", .tint 5, some [("A", JValue.jint 1)]⟩] none =
      (if pyTruthyName (⟨some "Unknown", .tint 5, some [("A", JValue.jint 1)]⟩ : Entry).name = true ∧
            specUnknownTag ⟨some "Unknown", .tint 5, some [("A", JValue.jint 1)]⟩ = false then
         (normalizeEntry none ⟨some "Unknown", .tint 5, some [("A", JValue.jint 1)]⟩).toList
       else []) ∧
    batch_pipeline [⟨some "Unknown", .tint 5, some [("A", JValue.jint 1)]⟩] (some ["unknown"]) =
      (if pyTruthyName (⟨some "Unknown", .tint 5, some [("A", JValue.jint 1)]⟩ : Entry).name = true ∧
            specUnknownTag ⟨some "Unknown", .tint 5, some [("A", JValue.jint 1)]⟩ = false then
         (if (["unknown"].map strLower).contains
               (strLower ((⟨some "Unknown", .tint 5, some [("A", JValue.jint 1)]⟩ : Entry).name.getD "")) then
            (normalizeEntry none ⟨some "Unknown", .tint 5, some [("A", JValue.jint 1)]⟩).toList
          else [])
       else []) :=
  c5_source_filter_amended ⟨some "Unknown", .tint 5, some [("A", JValue.jint 1)]⟩
    ["unknown"] (by decide)

/-- Claim C2 counterexample: a negative window length with a positive step
is not rejected up front by either output function: the records are
normalized and windowed (the per-slot selection over an empty interval is
always empty) and the call ends with the no-windows outcome, not with the
step-error rejection; the normalizer demonstrably processed the record. -/
theorem c2_length_not_rejected_counterexample :
    dict_to_csv 2 [⟨some "E", .tint 5, some [("A", JValue.jint 1)]⟩] (-1) (some 1) none
      = RunResult.noWindows ∧
    dict_to_json 2 [⟨some "E", .tint 5, some [("A", JValue.jint 1)]⟩] (some (-1)) (some 1) none
      = RunResult.noWindows ∧
    filter_and_process_data [⟨some "E", .tint 5, some [("A", JValue.jint 1)]⟩] none ≠ [] := by
  refine ⟨?_, ?_, by decide⟩ <;>
    norm_num [dict_to_csv, dict_to_json, stepNonpos, filter_and_process_data,
      List.filterMap_cons, normalizeEntry, is_valid_timestamp, isNumericType, numLE, numGT,
      ecuAccepts, ecuFilters, numericValues, isNumericJ, jToFloat, tsToFloat,
      create_windows, createWindowsAux, sortByTs, insertByTs, tminOf, tmaxOf,
      colsOf, dedupSeen, windowSelect, computeStats, fieldStats, fieldVals,
      minListQ, maxListQ, min_def, max_def, List.filterMap, List.lookup, List.isEmpty]

/-- Claim C2 amended: only an explicitly provided non-positive step is
rejected before any record is processed (by both output functions); a
non-positive window length is not validated: with a positive step the call
runs the full pipeline and ends with no windows, and with the step defaulted
to the non-positive length the window loop never terminates (the model
returns the fuel-exhaustion marker for every fuel). -/
theorem c2_step_only_guard :
    (∀ (fuel : ℕ) (data : List Entry) (wl s : ℚ) (ecu : Option (List String)),
        data ≠ [] → s ≤ 0 →
        dict_to_csv fuel data wl (some s) ecu = RunResult.stepError ∧
        dict_to_json fuel data (some wl) (some s) ecu = RunResult.stepError) ∧
    (∀ fuel : ℕ,
        dict_to_csv fuel [⟨some "E", .tint 5, some [("A", JValue.jint 1)]⟩] (-1) none none
          = RunResult.hang) := by
  constructor
  · intro fuel data wl s ecu hdata hs
    have h1 : data.isEmpty = false := by
      simpa [List.isEmpty_iff] using hdata
    constructor <;> simp [dict_to_csv, dict_to_json, h1, stepNonpos, hs]
  · intro fuel
    have hfd : filter_and_process_data [⟨some "E", .tint 5, some [("A", JValue.jint 1)]⟩] none
        = [⟨5, [("A", 1)]⟩] := by decide
    have hnone : create_windows fuel [⟨5, [("A", 1)]⟩] (-1) none = none := by
      unfold create_windows
      rw [if_neg (by decide)]
      exact createWindowsAux_nonpos_step (sortByTs [⟨5, [("A", 1)]⟩]) (-1)
        (Option.getD none (-1)) (tmaxOf (sortByTs [⟨5, [("A", 1)]⟩]))
        (colsOf [⟨5, [("A", 1)]⟩]) (by norm_num) fuel
        (tminOf (sortByTs [⟨5, [("A", 1)]⟩])) 0 (by decide)
    simp [dict_to_csv, stepNonpos, hfd, hnone]

/-- Claim C2 witness: the amended theorem applied at a concrete record with
step zero, and at the defaulted negative length with fuel three. -/
theorem c2_witness :
    (dict_to_csv 1 [⟨some "E", .tint 5, some [("A", JValue.jint 1)]⟩] 7 (some 0) none
        = RunResult.stepError ∧
      dict_to_json 1 [⟨some "E", .tint 5, some [("A", JValue.jint 1)]⟩] (some 7) (some 0) none
        = RunResult.stepError) ∧
    dict_to_csv 3 [⟨some "E", .tint 5, some [("A", JValue.jint 1)]⟩] (-1) none none
      = RunResult.hang :=
  ⟨c2_step_only_guard.1 1 [⟨some "E", .tint 5, some [("A", JValue.jint 1)]⟩] 7 0 none
      (by decide) (by norm_num),
    c2_step_only_guard.2 3⟩

theorem create_windows_eq_aux (fuel : ℕ) (data : List NormRecord) (len : ℚ)
    (step? : Option ℚ) (hd : data ≠ []) :
    create_windows fuel data len step? =
      createWindowsAux (sortByTs data) len (step?.getD len) (tmaxOf (sortByTs data))
        (colsOf data) fuel (tminOf (sortByTs data)) 0 := by
  unfold create_windows
  rw [if_neg (by simpa [List.isEmpty_iff] using hd)]

/-- Claim C7: for a non-empty record list and positive length and step
(including the defaulted step), the window loop terminates: some fuel
suffices to run the iteration to completion. -/
theorem c7_termination (data : List NormRecord) (len : ℚ) (step? : Option ℚ)
    (hdata : data ≠ []) (hlen : 0 < len) (hstep : 0 < step?.getD len) :
    ∃ fuel ws, create_windows fuel data len step? = some ws := by
  obtain ⟨n, hn⟩ :=
    exists_nat_gt ((tmaxOf (sortByTs data) - tminOf (sortByTs data)) / step?.getD len)
  have hbound :
      tmaxOf (sortByTs data) < tminOf (sortByTs data) + n * step?.getD len := by
    rw [div_lt_iff₀ hstep] at hn
    linarith
  obtain ⟨ws, hws⟩ := createWindowsAux_terminates (sortByTs data) len (step?.getD len)
    (tmaxOf (sortByTs data)) (colsOf data) n (tminOf (sortByTs data)) 0 hbound
  refine ⟨n, ws, ?_⟩
  rw [create_windows_eq_aux n data len step? hdata]
  exact hws

/-- Claim C6: when every record carries at least one field (the invariant
the normalizer establishes for every record it emits), a window is emitted
with a consumed index exactly for the non-empty slots: the emitted indices
are exactly 0, 1, 2, ... in order, every emitted window has a non-empty
selection, and every iterated slot with a non-empty selection contributes a
window. -/
theorem c6_index_iff_nonempty (data : List NormRecord) (len step : ℚ)
    (hstep : 0 < step) (hf : ∀ r ∈ data, r.fields ≠ [])
    (fuel : ℕ) (ws : List Window)
    (h : create_windows fuel data len (some step) = some ws) :
    ws.map Window.window_index = List.range ws.length ∧
    (∀ w ∈ ws, w.samples ≠ []) ∧
    (∀ k : ℕ,
        tminOf (sortByTs data) + k * step ≤ tmaxOf (sortByTs data) →
        windowSelect (sortByTs data) (tminOf (sortByTs data) + k * step)
          (tminOf (sortByTs data) + k * step + len) ≠ [] →
        ∃ w ∈ ws, w.window_start = tminOf (sortByTs data) + k * step) := by
  by_cases hd : data = []
  · subst hd
    unfold create_windows at h
    simp only [List.isEmpty_nil, if_true] at h
    cases h
    refine ⟨by simp, by simp, ?_⟩
    intro k hk hsel
    exact absurd rfl hsel
  · have hcols : colsOf data ≠ [] := colsOf_ne_nil hd hf
    rw [create_windows_eq_aux fuel data len (some step) hd] at h
    refine ⟨?_, ?_, ?_⟩
    · have hidx := createWindowsAux_indices (sortByTs data) len ((some step).getD len)
        (tmaxOf (sortByTs data)) (colsOf data) hcols fuel (tminOf (sortByTs data)) 0 ws h
      simpa [List.range_eq_range'] using hidx
    · intro w hw
      exact (createWindowsAux_windows (sortByTs data) len ((some step).getD len)
        (tmaxOf (sortByTs data)) (colsOf data) fuel (tminOf (sortByTs data)) 0 ws h w hw).2.2.1
    · intro k hk hsel
      exact createWindowsAux_complete (sortByTs data) len step (tmaxOf (sortByTs data))
        (colsOf data) hstep hcols fuel (tminOf (sortByTs data)) 0 ws h k hk hsel

/-- Claim C9: every emitted window ends exactly at its start plus the window
length, and aggregates exactly the records whose timestamp lies in the
half-open interval from the start (inclusive) to the end (exclusive). -/
theorem c9_window_bounds (data : List NormRecord) (len : ℚ) (step? : Option ℚ)
    (fuel : ℕ) (ws : List Window)
    (h : create_windows fuel data len step? = some ws)
    (w : Window) (hw : w ∈ ws) :
    w.window_end = w.window_start + len ∧
    ∀ r : NormRecord,
      r ∈ w.samples ↔
        (r ∈ data ∧ w.window_start ≤ r.timestamp ∧ r.timestamp < w.window_start + len) := by
  by_cases hd : data = []
  · subst hd
    unfold create_windows at h
    simp only [List.isEmpty_nil, if_true] at h
    cases h
    simp at hw
  · rw [create_windows_eq_aux fuel data len step? hd] at h
    obtain ⟨hend, hsamp, hne, hstats⟩ := createWindowsAux_windows (sortByTs data) len
      (step?.getD len) (tmaxOf (sortByTs data)) (colsOf data) fuel
      (tminOf (sortByTs data)) 0 ws h w hw
    refine ⟨hend, ?_⟩
    intro r
    rw [hsamp, windowSelect, List.mem_filter]
    simp only [Bool.and_eq_true, decide_eq_true_eq, mem_sortByTs]

/-- Claim C8: in every emitted window, a field whose selection contributed
exactly one sample reports that sample as min, max and mean and NaN (none)
as its deviation, and a field with at least two contributing samples reports
the Bessel-corrected sample variance (the square of the reported sample
standard deviation) with the n minus one divisor. -/
theorem c8_stats_single_and_bessel (data : List NormRecord) (len : ℚ)
    (step? : Option ℚ) (fuel : ℕ) (ws : List Window)
    (h : create_windows fuel data len step? = some ws)
    (w : Window) (hw : w ∈ ws) (f : String) (st : FieldStats)
    (hst : (f, st) ∈ w.stats) :
    (∀ v : ℚ, fieldVals f w.samples = [v] →
        st.fmin = some v ∧ st.fmax = some v ∧ st.fmean = some v ∧ st.fvar = none) ∧
    (2 ≤ (fieldVals f w.samples).length →
        st.fvar = some
          (((fieldVals f w.samples).map
              (fun x =>
                (x - (fieldVals f w.samples).sum /
                  ((fieldVals f w.samples).length : ℚ)) ^ 2)).sum /
            (((fieldVals f w.samples).length : ℚ) - 1))) := by
  by_cases hd : data = []
  · subst hd
    unfold create_windows at h
    simp only [List.isEmpty_nil, if_true] at h
    cases h
    simp at hw
  · rw [create_windows_eq_aux fuel data len step? hd] at h
    have hstats := (createWindowsAux_windows (sortByTs data) len (step?.getD len)
      (tmaxOf (sortByTs data)) (colsOf data) fuel (tminOf (sortByTs data)) 0 ws h w hw).2.2.2
    rw [hstats, computeStats] at hst
    obtain ⟨c, -, hc⟩ := List.mem_map.mp hst
    rw [Prod.mk.injEq] at hc
    obtain ⟨hc1, hc2⟩ := hc
    subst hc1
    subst hc2
    constructor
    · intro v hv
      rw [hv]
      simp [fieldStats, minListQ, maxListQ]
    · intro h2len
      obtain ⟨v, vs, hvals⟩ : ∃ v vs, fieldVals c w.samples = v :: vs := by
        cases hx : fieldVals c w.samples with
        | nil => rw [hx] at h2len; simp at h2len
        | cons a l => exact ⟨a, l, rfl⟩
      obtain ⟨v2, vs2, hvs⟩ : ∃ v2 vs2, vs = v2 :: vs2 := by
        cases hy : vs with
        | nil =>
          rw [hvals, hy] at h2len
          simp at h2len
        | cons a l => exact ⟨a, l, rfl⟩
      simp only [hvals, hvs]
      simp [fieldStats]

/-- Claim C7 witness: the termination theorem applied to a single-record
list with window length one and defaulted step. -/
theorem c7_witness :
    ([wrec] ≠ [] ∧ (0 : ℚ) < 1 ∧ (0 : ℚ) < (none : Option ℚ).getD 1) ∧
    ∃ fuel ws, create_windows fuel [wrec] 1 none = some ws :=
  ⟨⟨by decide, by norm_num, by norm_num⟩,
    c7_termination [wrec] 1 none (by decide) (by norm_num) (by norm_num)⟩

/-- Claim C6 witness: the index theorem applied to the single-record data
with length one and step one and fuel two. -/
theorem c6_witness :
    List.map Window.window_index [wwin] = List.range ([wwin] : List Window).length ∧
    (∀ w ∈ ([wwin] : List Window), w.samples ≠ []) ∧
    (∀ k : ℕ,
        tminOf (sortByTs [wrec]) + k * 1 ≤ tmaxOf (sortByTs [wrec]) →
        windowSelect (sortByTs [wrec]) (tminOf (sortByTs [wrec]) + k * 1)
          (tminOf (sortByTs [wrec]) + k * 1 + 1) ≠ [] →
        ∃ w ∈ ([wwin] : List Window), w.window_start = tminOf (sortByTs [wrec]) + k * 1) := by
  have h : create_windows 2 [wrec] 1 (some 1) = some [wwin] := by
    norm_num [wrec, wwin, create_windows, createWindowsAux, sortByTs, insertByTs,
      tminOf, tmaxOf, colsOf, dedupSeen, windowSelect, computeStats, fieldStats,
      fieldVals, minListQ, maxListQ, min_def, max_def, List.filterMap, List.lookup,
      List.isEmpty]
  exact c6_index_iff_nonempty [wrec] 1 1 (by norm_num)
    (by intro r hr; rw [List.mem_singleton] at hr; subst hr; decide) 2 [wwin] h

/-- Claim C9 witness: the bounds theorem applied to the two-record data with
length and step two; the first window ends at its start plus two and its
membership test excludes the record at the boundary timestamp 2. -/
theorem c9_witness :
    w02.window_end = w02.window_start + 2 ∧
    ∀ r : NormRecord,
      r ∈ w02.samples ↔
        (r ∈ [r01, r25] ∧ w02.window_start ≤ r.timestamp ∧
          r.timestamp < w02.window_start + 2) := by
  have h : create_windows 3 [r01, r25] 2 (some 2) = some [w02, w24] := by
    norm_num [r01, r25, w02, w24, create_windows, createWindowsAux, sortByTs, insertByTs,
      tminOf, tmaxOf, colsOf, dedupSeen, windowSelect, computeStats, fieldStats,
      fieldVals, minListQ, maxListQ, min_def, max_def, List.filterMap, List.lookup,
      List.isEmpty]
  exact c9_window_bounds [r01, r25] 2 (some 2) 3 [w02, w24] h w02 (by simp)

/-- Claim C8 witness: the statistics theorem applied to the three-sample
window (values 0, 10 and 20, mean 10, variance 100). -/
theorem c8_witness :
    (∀ v : ℚ, fieldVals "a" sw.samples = [v] →
        (⟨some 0, some 20, some 10, some 100⟩ : FieldStats).fmin = some v ∧
        (⟨some 0, some 20, some 10, some 100⟩ : FieldStats).fmax = some v ∧
        (⟨some 0, some 20, some 10, some 100⟩ : FieldStats).fmean = some v ∧
        (⟨some 0, some 20, some 10, some 100⟩ : FieldStats).fvar = none) ∧
    (2 ≤ (fieldVals "a" sw.samples).length →
        (⟨some 0, some 20, some 10, some 100⟩ : FieldStats).fvar = some
          (((fieldVals "a" sw.samples).map
              (fun x =>
                (x - (fieldVals "a" sw.samples).sum /
                  ((fieldVals "a" sw.samples).length : ℚ)) ^ 2)).sum /
            (((fieldVals "a" sw.samples).length : ℚ) - 1))) := by
  have h : create_windows 2 [s0, s1, s2] 3 (some 3) = some [sw] := by
    norm_num [s0, s1, s2, sw, create_windows, createWindowsAux, sortByTs, insertByTs,
      tminOf, tmaxOf, colsOf, dedupSeen, windowSelect, computeStats, fieldStats,
      fieldVals, minListQ, maxListQ, min_def, max_def, List.filterMap, List.lookup,
      List.isEmpty]
  exact c8_stats_single_and_bessel [s0, s1, s2] 3 (some 3) 2 [sw] h sw (by simp)
    "a" ⟨some 0, some 20, some 10, some 100⟩ (by simp [sw])

end Windower
